import Mathlib

/-!
Verification of the product-enhancer enrichment pipeline.

This file gives a shallow embedding, in Lean 4, of the core of the
repository: the Python string primitives the pipeline relies on, the
taxonomy/attribute validation with its fuzzy (case-insensitive substring)
fallback (src/pipeline/nodes.py), the JSON-from-text extraction routine
(src/pipeline/bedrock_client.py, extract_json_from_response), the raw-call
cache of the Bedrock gateway (BedrockLLMManager), the semantic TTL cache
(src/pipeline/cache_manager.py), the batch scheduler
(src/pipeline/batch_processor.py) and the output formatting node
(format_output_node).  Theorems about these definitions settle the claims
of the design specification.

Modelling conventions:
  * Python strings are Lean `String`s; `s.lower()` is mapped over the
    characters, `in` is substring containment on the character lists.
  * Python dicts with string keys are association lists preserving
    insertion order (as CPython dicts do); JSON values are `PyVal`.
  * `datetime.now()` is an explicit `Nat` timestamp threaded through the
    cache operations; `timedelta(seconds=t)` is addition.
  * The md5 cache keys are modelled by the exact content strings
    (resp. keyword-argument lists) that the source hashes: md5 is treated
    as injective, which is the intent of the code.
  * `async` functions become pure functions; the outcome of the
    underlying Bedrock transport (including the JSON decoding of the
    response body inside the gateway's `try`) is an explicit
    `Except String String` argument, and LLM-backed nodes take the
    gateway and the JSON parser as function arguments
    (dependency injection, as §9 of the design recommends).
-/

namespace ProductEnhancer

/-! ## Python string primitives -/

/-- Python `s.lower()` on a string (character-wise lowering). -/
def pyLower (s : String) : String := ⟨s.data.map Char.toLower⟩

/-- Test that `needle` occurs at the start of `hay` (character lists). -/
def startsWithCh : List Char → List Char → Bool
  | [], _ => true
  | _ :: _, [] => false
  | a :: as, b :: bs => a == b && startsWithCh as bs

/-- Python `needle in hay` on character lists (substring containment). -/
def containsCh (needle : List Char) : List Char → Bool
  | [] => needle.isEmpty
  | b :: bs => startsWithCh needle (b :: bs) || containsCh needle bs

/-- Python `needle in hay` on strings. -/
def pyIn (needle hay : String) : Bool := containsCh needle.data hay.data

/-- The whitespace characters of Python's `str.strip` / regex `\s` (ASCII). -/
def pyIsSpace (c : Char) : Bool :=
  c == ' ' || c == '\t' || c == '\n' || c == '\r' || c == '\x0b' || c == '\x0c'

/-- Python `s.strip()`. -/
def pyStrip (s : String) : String :=
  ⟨((s.data.dropWhile pyIsSpace).reverse.dropWhile pyIsSpace).reverse⟩

/-! ## Validation & fuzzy-match policy (src/pipeline/nodes.py)

`find_taxonomy_matches_node` validates each label returned by the LLM:
exact membership in the taxonomy list, otherwise a scan of the list in
original order for the first entry where either string is a
case-insensitive substring of the other (`match1.lower() in tax.lower()
or tax.lower() in match1.lower()`), otherwise the "N/A" sentinel.
`find_attribute_matches_node` validates by exact membership only. -/

/-- The condition of the fuzzy fallback loop in `find_taxonomy_matches_node`:
`lbl.lower() in tax.lower() or tax.lower() in lbl.lower()`. -/
def fuzzyHit (lbl tax : String) : Bool :=
  pyIn (pyLower lbl) (pyLower tax) || pyIn (pyLower tax) (pyLower lbl)

/-- The `for tax in taxonomy_list: ... break / else: "N/A"` loop of
`find_taxonomy_matches_node`: first fuzzy hit in original order, else "N/A". -/
def fuzzyScan (lbl : String) : List String → String
  | [] => "N/A"
  | tax :: rest => if fuzzyHit lbl tax then tax else fuzzyScan lbl rest

/-- Validation of one taxonomy label in `find_taxonomy_matches_node`
(nodes.py lines 265-284): exact membership, else fuzzy scan. -/
def validateTaxonomyLabel (lbl : String) (taxonomy_list : List String) : String :=
  if lbl ∈ taxonomy_list then lbl else fuzzyScan lbl taxonomy_list

/-- Validation of one attribute label in `find_attribute_matches_node`
(nodes.py lines 394-402): exact membership, else "N/A" (no fuzzy scan). -/
def validateAttributeLabel (lbl : String) (available_attributes : List String) : String :=
  if lbl ∈ available_attributes then lbl else "N/A"

theorem fuzzyScan_mem_or_na (lbl : String) (cat : List String) :
    fuzzyScan lbl cat = "N/A" ∨ fuzzyScan lbl cat ∈ cat := by
  induction cat with
  | nil => left; rfl
  | cons t rest ih =>
    by_cases h : fuzzyHit lbl t = true
    · right; simp [fuzzyScan, h]
    · rcases ih with h' | h'
      · left; simpa [fuzzyScan, h] using h'
      · right; simp only [fuzzyScan, h, if_neg, Bool.not_eq_true] at *
        exact List.mem_cons_of_mem _ h'

theorem validateTaxonomyLabel_mem_or_na (lbl : String) (cat : List String) :
    validateTaxonomyLabel lbl cat = "N/A" ∨ validateTaxonomyLabel lbl cat ∈ cat := by
  unfold validateTaxonomyLabel
  by_cases h : lbl ∈ cat
  · right; simp [h]
  · simpa [h] using fuzzyScan_mem_or_na lbl cat

theorem validateAttributeLabel_mem_or_na (lbl : String) (cat : List String) :
    validateAttributeLabel lbl cat = "N/A" ∨ validateAttributeLabel lbl cat ∈ cat := by
  unfold validateAttributeLabel
  by_cases h : lbl ∈ cat
  · right; simp [h]
  · left; simp [h]

/-- The function `fuzzyScan` returns the first hit of the catalog in original order. -/
theorem fuzzyScan_first_hit (lbl : String) (cat : List String) :
    (∃ pre t post, cat = pre ++ t :: post ∧ fuzzyHit lbl t = true ∧
      (∀ u ∈ pre, fuzzyHit lbl u = false) ∧ fuzzyScan lbl cat = t) ∨
    ((∀ u ∈ cat, fuzzyHit lbl u = false) ∧ fuzzyScan lbl cat = "N/A") := by
  induction cat with
  | nil => right; exact ⟨(by intro u hu; cases hu), rfl⟩
  | cons t rest ih =>
    by_cases h : fuzzyHit lbl t = true
    · left
      exact ⟨[], t, rest, rfl, h, (by intro u hu; cases hu), by simp [fuzzyScan, h]⟩
    · have hf : fuzzyHit lbl t = false := by
        cases hb : fuzzyHit lbl t
        · rfl
        · exact absurd hb h
      rcases ih with ⟨pre, t', post, hcat, hhit, hpre, hres⟩ | ⟨hall, hres⟩
      · left
        refine ⟨t :: pre, t', post, by simp [hcat], hhit, ?_, ?_⟩
        · intro u hu
          rcases List.mem_cons.mp hu with rfl | hu'
          · exact hf
          · exact hpre u hu'
        · simpa [fuzzyScan, h] using hres
      · right
        refine ⟨?_, by simpa [fuzzyScan, h] using hres⟩
        intro u hu
        rcases List.mem_cons.mp hu with rfl | hu'
        · exact hf
        · exact hall u hu'

/-! ## JSON extraction (src/pipeline/bedrock_client.py, extract_json_from_response)

The Python routine is:
  response = re.sub(r'^```json\s*', '', response, flags=re.MULTILINE)
  response = re.sub(r'^```\s*$', '', response, flags=re.MULTILINE)
  match = re.search(r'(\x7b.*\x7d|\[.*\])', response, re.DOTALL)
  if match: return match.group(1)
  return response.strip()

The two substitutions are embedded as character-list scans that track
whether the current position is a line start (re.MULTILINE `^`: position
0 or right after a newline).  The greedy `\s*` of the first pattern
consumes the maximal whitespace run; the `\s*$` of the second consumes
the longest whitespace run after which the position is end-of-string or
sits before a newline (the backtracking of the greedy quantifier).
The DOTALL search matches, at the first position holding a `\x7b` with a
later `\x7d` (or a `[` with a later `]`), the span extending to the last
such closing character. -/

theorem length_dropWhile_le (p : α → Bool) (l : List α) :
    (l.dropWhile p).length ≤ l.length := by
  induction l with
  | nil => simp
  | cons a t ih =>
    by_cases h : p a = true
    · simp only [List.dropWhile_cons, h, if_true]
      exact Nat.le_succ_of_le ih
    · simp [List.dropWhile_cons, h]

/-- Substitution of `^```json\s*` (re.MULTILINE), scanning left to right.
The Bool argument states whether the current position is a line start. -/
def subJsonFence : Bool → List Char → List Char
  | _, [] => []
  | lineStart, c :: rest =>
    if lineStart && startsWithCh "```json".data (c :: rest) then
      -- consume "```json" and the maximal whitespace run after it;
      -- the next position is a line start iff the last consumed
      -- character was a newline
      subJsonFence (((rest.drop 6).takeWhile pyIsSpace).getLast? == some '\n')
        ((rest.drop 6).dropWhile pyIsSpace)
    else
      c :: subJsonFence (c == '\n') rest
termination_by _ s => s.length
decreasing_by
  · have h1 := length_dropWhile_le pyIsSpace (rest.drop 6)
    have h2 : (rest.drop 6).length = rest.length - 6 := List.length_drop 6 rest
    simp only [List.length_cons]
    omega
  · simp only [List.length_cons]; omega

/-- The whitespace actually consumed by the greedy `\s*$` of `^```\s*$`
after the three backticks: the maximal run if the string ends there,
otherwise the run cut just before its last newline.  `none` when the
pattern cannot complete (no `$` reachable). -/
def bareFenceTail (after : List Char) : Option (List Char) :=
  let run := after.takeWhile pyIsSpace
  if after.dropWhile pyIsSpace = [] then some run
  else if run.contains '\n' then
    -- everything of the run strictly before its last newline
    some ((run.reverse.dropWhile (fun c => !(c == '\n'))).drop 1).reverse
  else none

/-- Substitution of `^```\s*$` (re.MULTILINE), scanning left to right. -/
def subBareFence : Bool → List Char → List Char
  | _, [] => []
  | lineStart, c :: rest =>
    match if lineStart && startsWithCh "```".data (c :: rest) then
        bareFenceTail (rest.drop 2) else none with
    | some w =>
      subBareFence (w.getLast? == some '\n') ((rest.drop 2).drop w.length)
    | none =>
      c :: subBareFence (c == '\n') rest
termination_by _ s => s.length
decreasing_by
  · have h2 : ((rest.drop 2).drop w.length).length ≤ (rest.drop 2).length := by
      rw [List.length_drop]; omega
    have h3 : (rest.drop 2).length = rest.length - 2 := List.length_drop 2 rest
    simp only [List.length_cons]
    omega
  · simp only [List.length_cons]; omega

/-- Both fence substitutions, in source order (response reassigned twice). -/
def stripFences (s : String) : String :=
  ⟨subBareFence true (subJsonFence true s.data)⟩

/-- The longest initial segment of `l` ending at the last occurrence of `c`
(`[]` when `c` does not occur). -/
def upToLast (c : Char) (l : List Char) : List Char :=
  (l.reverse.dropWhile (fun x => !(x == c))).reverse

/-- Embedding of `re.search(r'(\x7b.*\x7d|\[.*\])', response, re.DOTALL)`: at the first
position holding an opener with a later closer of the same kind, the greedy
`.*` extends the match to the last such closer in the remaining text. -/
def findJsonSpan : List Char → Option (List Char)
  | [] => none
  | c :: rest =>
    if c == '{' && rest.contains '}' then some (c :: upToLast '}' rest)
    else if c == '[' && rest.contains ']' then some (c :: upToLast ']' rest)
    else findJsonSpan rest

/-- Embedding of `extract_json_from_response` (bedrock_client.py lines 172-193). -/
def extract_json_from_response (response : String) : String :=
  let t := stripFences response
  match findJsonSpan t.data with
  | some span => ⟨span⟩
  | none => pyStrip t

/-- Number of occurrences of a character in a character list. -/
def countCh (c : Char) (l : List Char) : Nat := (l.filter (fun x => x == c)).length

theorem dropWhile_neq_split (c : Char) (r : List Char) (h : c ∈ r) :
    ∃ t, r.dropWhile (fun x => !(x == c)) = c :: t ∧
      c ∉ r.takeWhile (fun x => !(x == c)) := by
  induction r with
  | nil => cases h
  | cons a t ih =>
    by_cases ha : a = c
    · subst ha
      exact ⟨t, by simp [List.dropWhile_cons], by simp [List.takeWhile_cons]⟩
    · have h' : c ∈ t := by
        rcases List.mem_cons.mp h with h1 | h2
        · exact absurd h1.symm ha
        · exact h2
      obtain ⟨t', hd, htw⟩ := ih h'
      have hne : (a == c) = false := by simp [ha]
      refine ⟨t', ?_, ?_⟩
      · simp [List.dropWhile_cons, hne, hd]
      · simp only [List.takeWhile_cons, hne, Bool.not_false, if_true, List.mem_cons]
        rintro (h1 | h2)
        · exact ha h1.symm
        · exact htw h2

theorem upToLast_spec (c : Char) (l : List Char) (h : c ∈ l) :
    ∃ post, l = upToLast c l ++ post ∧ (upToLast c l).getLast? = some c ∧ c ∉ post := by
  have hr : c ∈ l.reverse := List.mem_reverse.mpr h
  obtain ⟨t, hd, htw⟩ := dropWhile_neq_split c l.reverse hr
  refine ⟨(l.reverse.takeWhile (fun x => !(x == c))).reverse, ?_, ?_, ?_⟩
  · have hsplit :
        l.reverse.takeWhile (fun x => !(x == c)) ++
          l.reverse.dropWhile (fun x => !(x == c)) = l.reverse :=
      List.takeWhile_append_dropWhile _ _
    calc l = l.reverse.reverse := (List.reverse_reverse l).symm
    _ = (l.reverse.takeWhile (fun x => !(x == c)) ++
          l.reverse.dropWhile (fun x => !(x == c))).reverse := by rw [hsplit]
    _ = upToLast c l ++ (l.reverse.takeWhile (fun x => !(x == c))).reverse := by
          rw [List.reverse_append]; rfl
  · show (l.reverse.dropWhile (fun x => !(x == c))).reverse.getLast? = some c
    rw [hd]
    simp
  · intro hc
    exact htw (List.mem_reverse.mp hc)

/-- The span found by `findJsonSpan` starts at the first opener that has a
later closer of its kind, and runs to the last closer of that kind. -/
theorem findJsonSpan_some_spec :
    ∀ (l span : List Char), findJsonSpan l = some span →
    ∃ pre post, l = pre ++ span ++ post ∧
      ((span.head? = some '{' ∧ span.getLast? = some '}' ∧ '}' ∉ post) ∨
       (span.head? = some '[' ∧ span.getLast? = some ']' ∧ ']' ∉ post)) ∧
      ∀ p₁ x p₂, pre = p₁ ++ x :: p₂ →
        (x = '{' → '}' ∉ (p₂ ++ span ++ post)) ∧
        (x = '[' → ']' ∉ (p₂ ++ span ++ post)) := by
  intro l
  induction l with
  | nil => intro span h; simp [findJsonSpan] at h
  | cons c rest ih =>
    intro span h
    by_cases hb : (c == '{' && rest.contains '}') = true
    · have hc : c = '{' := by
        have := (Bool.and_eq_true _ _).mp hb
        simpa using this.1
      have hmem : '}' ∈ rest := by
        have := (Bool.and_eq_true _ _).mp hb
        simpa using this.2
      have hspan : span = c :: upToLast '}' rest := by
        rw [findJsonSpan, if_pos hb] at h
        exact (Option.some.injEq _ _).mp h |>.symm
      obtain ⟨post, hsplit, hlast, hnot⟩ := upToLast_spec '}' rest hmem
      refine ⟨[], post, ?_, ?_, ?_⟩
      · rw [hspan, List.nil_append, List.cons_append, ← hsplit]
      · left
        refine ⟨by simp [hspan, hc], ?_, hnot⟩
        obtain ⟨u, hu⟩ : ∃ u, upToLast '}' rest = u := ⟨_, rfl⟩
        cases u with
        | nil => rw [hu] at hlast; simp at hlast
        | cons u₀ u' =>
          rw [hspan, hu, List.getLast?_cons_cons, ← hu]
          exact hlast
      · intro p₁ x p₂ hdec
        exact absurd hdec.symm (by simp)
    · by_cases hb2 : (c == '[' && rest.contains ']') = true
      · have hc : c = '[' := by
          have := (Bool.and_eq_true _ _).mp hb2
          simpa using this.1
        have hmem : ']' ∈ rest := by
          have := (Bool.and_eq_true _ _).mp hb2
          simpa using this.2
        have hspan : span = c :: upToLast ']' rest := by
          rw [findJsonSpan, if_neg hb, if_pos hb2] at h
          exact (Option.some.injEq _ _).mp h |>.symm
        obtain ⟨post, hsplit, hlast, hnot⟩ := upToLast_spec ']' rest hmem
        refine ⟨[], post, ?_, ?_, ?_⟩
        · rw [hspan, List.nil_append, List.cons_append, ← hsplit]
        · right
          refine ⟨by simp [hspan, hc], ?_, hnot⟩
          obtain ⟨u, hu⟩ : ∃ u, upToLast ']' rest = u := ⟨_, rfl⟩
          cases u with
          | nil => rw [hu] at hlast; simp at hlast
          | cons u₀ u' =>
            rw [hspan, hu, List.getLast?_cons_cons, ← hu]
            exact hlast
        · intro p₁ x p₂ hdec
          exact absurd hdec.symm (by simp)
      · have hrec : findJsonSpan rest = some span := by
          rw [findJsonSpan, if_neg hb, if_neg hb2] at h
          exact h
        obtain ⟨pre, post, hsplit, hshape, hpre⟩ := ih span hrec
        refine ⟨c :: pre, post, by rw [List.cons_append, List.cons_append, ← hsplit],
          hshape, ?_⟩
        intro p₁ x p₂ hdec
        cases p₁ with
        | nil =>
          rw [List.nil_append] at hdec
          obtain ⟨hxc, hp₂⟩ := List.cons.inj hdec
          subst hxc
          subst hp₂
          rw [← hsplit]
          constructor
          · intro hx
            subst hx
            intro hmem
            simp at hb
            exact hb hmem
          · intro hx
            subst hx
            intro hmem
            simp at hb2
            exact hb2 hmem
        | cons a p₁' =>
          rw [List.cons_append] at hdec
          obtain ⟨-, hp⟩ := List.cons.inj hdec
          exact hpre p₁' x p₂ hp

/-- C4 (counterexample): on a response holding one `\x7b`, a later `\x7d`
and a second `\x7d` after trailing prose, the routine returns the span
from the `\x7b` to the *last* `\x7d` — a string with one opening and two
closing braces, hence not a balanced JSON object, and in particular not
the first balanced top-level object of the text. -/
theorem extraction_not_first_balanced :
    extract_json_from_response "\x7ba: 1\x7d tail \x7d" = "\x7ba: 1\x7d tail \x7d" ∧
    countCh '{' (extract_json_from_response "\x7ba: 1\x7d tail \x7d").data = 1 ∧
    countCh '}' (extract_json_from_response "\x7ba: 1\x7d tail \x7d").data = 2 := by
  refine ⟨?_, ?_, ?_⟩ <;>
    simp [extract_json_from_response, stripFences, subJsonFence, subBareFence,
      findJsonSpan, upToLast, startsWithCh, pyIsSpace, bareFenceTail, countCh]

/-- C4 (amended): after the two fence-removal substitutions, the routine
returns the substring starting at the first `\x7b` having a later `\x7d`
(or first `[` having a later `]`) and extending to the last closer of that
kind — not the first *balanced* object — and returns the
whitespace-stripped text when no such opener/closer pair exists. -/
theorem extraction_span_shape (response : String) :
    (findJsonSpan (stripFences response).data = none ∧
      extract_json_from_response response = pyStrip (stripFences response)) ∨
    (∃ pre span post, (stripFences response).data = pre ++ span ++ post ∧
      extract_json_from_response response = String.mk span ∧
      ((span.head? = some '{' ∧ span.getLast? = some '}' ∧ '}' ∉ post) ∨
       (span.head? = some '[' ∧ span.getLast? = some ']' ∧ ']' ∉ post)) ∧
      ∀ p₁ x p₂, pre = p₁ ++ x :: p₂ →
        (x = '{' → '}' ∉ (p₂ ++ span ++ post)) ∧
        (x = '[' → ']' ∉ (p₂ ++ span ++ post))) := by
  cases hf : findJsonSpan (stripFences response).data with
  | none =>
    left
    exact ⟨rfl, by simp [extract_json_from_response, hf]⟩
  | some span =>
    right
    obtain ⟨pre, post, hsplit, hshape, hpre⟩ := findJsonSpan_some_spec _ span hf
    exact ⟨pre, span, post, hsplit, by simp [extract_json_from_response, hf], hshape, hpre⟩

/-! ## Python/JSON values and dicts -/

/-- A JSON-shaped Python value, as produced by `json.loads`. -/
inductive PyVal where
  | null
  | str (s : String)
  | int (n : Int)
  | list (xs : List PyVal)
deriving Inhabited

/-- A Python dict with string keys, in insertion order. -/
abbrev PyDict := List (String × PyVal)

/-- First-match association lookup (Python dict access by key). -/
def assocFind {κ β : Type} [DecidableEq κ] (k : κ) : List (κ × β) → Option β
  | [] => Option.none
  | (k', v) :: t => if k' = k then some v else assocFind k t

/-- Python dict assignment: update in place (insertion position kept),
append when the key is new. -/
def assocSet {κ β : Type} [DecidableEq κ] (k : κ) (v : β) : List (κ × β) → List (κ × β)
  | [] => [(k, v)]
  | (k', v') :: t => if k' = k then (k, v) :: t else (k', v') :: assocSet k v t

/-- Python `del d[k]`. -/
def assocErase {κ β : Type} [DecidableEq κ] (k : κ) : List (κ × β) → List (κ × β)
  | [] => []
  | (k', v') :: t => if k' = k then t else (k', v') :: assocErase k t

theorem assocFind_set_self {κ β : Type} [DecidableEq κ] (k : κ) (v : β)
    (l : List (κ × β)) : assocFind k (assocSet k v l) = some v := by
  induction l with
  | nil => simp [assocSet, assocFind]
  | cons p t ih =>
    by_cases h : p.1 = k
    · simp [assocSet, h, assocFind]
    · simpa [assocSet, h, assocFind] using ih

/-- Python `d.get(key, default)` on a dict. -/
def pyDictGet (d : PyDict) (k : String) (default : PyVal) : PyVal :=
  match assocFind k d with
  | some v => v
  | Option.none => default

/-! ## Semantic result cache (src/pipeline/cache_manager.py)

`CacheManager._get_key` hashes `json.dumps(kwargs, sort_keys=True)` with
md5.  The hash is modelled as injective, so the key is the
sorted keyword-argument list itself; every keyword value the pipeline
passes is a string. -/

abbrev CacheParams := List (String × String)

def insertSortedParam (p : String × String) : CacheParams → CacheParams
  | [] => [p]
  | q :: t => if p.1 < q.1 then p :: q :: t else q :: insertSortedParam p t

/-- Embedding of `json.dumps(kwargs, sort_keys=True)`: canonicalization by key order. -/
def canonParams : CacheParams → CacheParams
  | [] => []
  | p :: t => insertSortedParam p (canonParams t)

structure SemEntry (α : Type) where
  value : α
  expires_at : Nat
  created_at : Nat

/-- The in-memory TTL cache: `_cache` plus hit/miss counters. -/
structure SemCache (α : Type) where
  entries : List (CacheParams × SemEntry α)
  hit_count : Nat
  miss_count : Nat

def emptySemCache (α : Type) : SemCache α := ⟨[], 0, 0⟩

namespace CacheManager

/-- Embedding of `CacheManager.get` (cache_manager.py lines 31-53): hit while
`expires_at > now`, lazy eviction of an expired entry, miss otherwise. -/
def get {α : Type} (c : SemCache α) (now : Nat) (params : CacheParams) :
    Option α × SemCache α :=
  let key := canonParams params
  match assocFind key c.entries with
  | some entry =>
    if now < entry.expires_at then
      (some entry.value, ⟨c.entries, c.hit_count + 1, c.miss_count⟩)
    else
      (Option.none, ⟨assocErase key c.entries, c.hit_count, c.miss_count + 1⟩)
  | Option.none => (Option.none, ⟨c.entries, c.hit_count, c.miss_count + 1⟩)

/-- Embedding of `CacheManager.set` (cache_manager.py lines 55-70). -/
def set {α : Type} (c : SemCache α) (now : Nat) (value : α) (ttl_seconds : Nat)
    (params : CacheParams) : SemCache α :=
  ⟨assocSet (canonParams params) ⟨value, now + ttl_seconds, now⟩ c.entries,
    c.hit_count, c.miss_count⟩

end CacheManager

/-- C7: `get` with the parameters of an immediately preceding `set`
returns exactly the value set while the TTL has not expired
(`expires_at > now`), and a miss (`None`) once it has. -/
theorem semantic_cache_get_after_set {α : Type} (c : SemCache α) (v : α)
    (ttl t0 t1 : Nat) (ps : CacheParams) (_httl : 0 < ttl) :
    (t1 < t0 + ttl →
      (CacheManager.get (CacheManager.set c t0 v ttl ps) t1 ps).1 = some v) ∧
    (t0 + ttl ≤ t1 →
      (CacheManager.get (CacheManager.set c t0 v ttl ps) t1 ps).1 = Option.none) := by
  have hfind := assocFind_set_self (canonParams ps)
    (⟨v, t0 + ttl, t0⟩ : SemEntry α) c.entries
  constructor
  · intro hlt
    simp [CacheManager.get, CacheManager.set, hfind, hlt]
  · intro hge
    simp [CacheManager.get, CacheManager.set, hfind, Nat.not_lt.mpr hge]

/-- Witness for C7 at a concrete cache, value, TTL and pair of read
times (one inside, one at expiry). -/
theorem semantic_cache_get_after_set_witness :
    (CacheManager.get (CacheManager.set (emptySemCache Nat) 0 7 3
      [("type", "vendor_info")]) 2 [("type", "vendor_info")]).1 = some 7 ∧
    (CacheManager.get (CacheManager.set (emptySemCache Nat) 0 7 3
      [("type", "vendor_info")]) 3 [("type", "vendor_info")]).1 = Option.none :=
  ⟨(semantic_cache_get_after_set (emptySemCache Nat) 7 3 0 2
      [("type", "vendor_info")] (by decide)).1 (by decide),
   (semantic_cache_get_after_set (emptySemCache Nat) 7 3 0 3
      [("type", "vendor_info")] (by decide)).2 (by decide)⟩

/-! ## LLM gateway raw-call cache and call (src/pipeline/bedrock_client.py)

`call_async` checks the raw-call cache, then performs the Bedrock call
inside a `try` that catches every exception and returns `None`.  The
whole transport — `invoke_model`, reading the body, `json.loads`, and the
`["content"][0]["text"]` access — happens inside that `try`; it is
modelled by an `Except String String` argument whose `ok` value is the
response text before the final `.strip()`. -/

/-- Embedding of `_get_cache_key`: md5 of `f"{model}:{system_prompt or ''}:{prompt}"`,
modelled by the hashed content itself. -/
def rawCacheKey (prompt : String) (system_prompt : Option String) (model : String) :
    String :=
  model ++ ":" ++ system_prompt.getD "" ++ ":" ++ prompt

abbrev RawCache := List (String × String)

/-- Embedding of `_check_cache` (bedrock_client.py lines 62-66). -/
def checkRawCache (cache_enabled : Bool) (cache : RawCache) (key : String) :
    Option String :=
  if cache_enabled then assocFind key cache else Option.none

/-- Embedding of `_set_cache` (bedrock_client.py lines 68-78): store, then drop the 100
oldest entries (insertion order) when more than 1000 are held. -/
def setRawCache (cache_enabled : Bool) (cache : RawCache) (key result : String) :
    RawCache :=
  if cache_enabled then
    let c := assocSet key result cache
    if 1000 < c.length then c.drop 100 else c
  else cache

/-- The body of `call_async` under the semaphore (lines 108-158): on a
transport error, `None` with the cache unchanged; on success, the stripped
text, cached when `use_cache`.  The third component records that the
transport was exercised. -/
def call_transport (cache_enabled : Bool) (cache : RawCache) (prompt : String)
    (system_prompt : Option String) (model : String) (use_cache : Bool)
    (transport : Except String String) : Option String × RawCache × Bool :=
  match transport with
  | Except.error _ => (Option.none, cache, true)
  | Except.ok text =>
    (some (pyStrip text),
     if use_cache then
       setRawCache cache_enabled cache (rawCacheKey prompt system_prompt model)
         (pyStrip text)
     else cache,
     true)

/-- Embedding of `call_async` (bedrock_client.py lines 80-158): a truthy cached text
short-circuits (`if cached:`); a missing or empty cached text falls
through to the transport. -/
def call_async (cache_enabled : Bool) (cache : RawCache) (prompt : String)
    (system_prompt : Option String) (model : String) (use_cache : Bool)
    (transport : Except String String) : Option String × RawCache × Bool :=
  match (if use_cache then
      checkRawCache cache_enabled cache (rawCacheKey prompt system_prompt model)
    else Option.none) with
  | some v =>
    if v = "" then
      call_transport cache_enabled cache prompt system_prompt model use_cache transport
    else (some v, cache, false)
  | Option.none =>
    call_transport cache_enabled cache prompt system_prompt model use_cache transport

/-- C6: when the transport raises, `call_async` resolves to `None` with the
cache unchanged — unless a truthy cache hit short-circuited before the
transport, in which case the cached text is returned; no exception escapes
(the embedding is a total function). -/
theorem gateway_error_resolves_to_none (cache_enabled : Bool) (cache : RawCache)
    (prompt : String) (system_prompt : Option String) (model : String)
    (use_cache : Bool) (e : String) :
    call_async cache_enabled cache prompt system_prompt model use_cache
        (Except.error e) = (Option.none, cache, true) ∨
    ∃ v, v ≠ "" ∧ use_cache = true ∧
      checkRawCache cache_enabled cache (rawCacheKey prompt system_prompt model)
        = some v ∧
      call_async cache_enabled cache prompt system_prompt model use_cache
        (Except.error e) = (some v, cache, false) := by
  cases hc : (if use_cache then
      checkRawCache cache_enabled cache (rawCacheKey prompt system_prompt model)
    else Option.none) with
  | none => left; simp [call_async, hc, call_transport]
  | some v =>
    by_cases hv : v = ""
    · left; simp [call_async, hc, hv, call_transport]
    · right
      have hu : use_cache = true := by
        cases use_cache
        · simp at hc
        · rfl
      refine ⟨v, hv, hu, ?_, by simp [call_async, hc, hv]⟩
      rw [hu] at hc
      simpa using hc

/-! ## C9: raw-cache entries always come from successful calls -/

/-- One observable `call_async` invocation: its arguments and transport
outcome. -/
structure RawEvent where
  prompt : String
  system_prompt : Option String
  model : String
  use_cache : Bool
  transport : Except String String

def stepRaw (cache_enabled : Bool) (cache : RawCache) (ev : RawEvent) :
    Option String × RawCache × Bool :=
  call_async cache_enabled cache ev.prompt ev.system_prompt ev.model ev.use_cache
    ev.transport

/-- The raw cache after a sequence of calls starting from the empty cache. -/
def runRaw (cache_enabled : Bool) (evs : List RawEvent) : RawCache :=
  evs.foldl (fun c ev => (stepRaw cache_enabled c ev).2.1) []

theorem mem_assocSet {κ β : Type} [DecidableEq κ] (k : κ) (v : β)
    (l : List (κ × β)) (x : κ × β) (h : x ∈ assocSet k v l) :
    x ∈ l ∨ x = (k, v) := by
  induction l with
  | nil => simpa [assocSet] using h
  | cons p t ih =>
    by_cases hp : p.1 = k
    · rw [assocSet, if_pos hp] at h
      rcases List.mem_cons.mp h with rfl | hx
      · right; rfl
      · left; exact List.mem_cons_of_mem _ hx
    · rw [assocSet, if_neg hp] at h
      rcases List.mem_cons.mp h with rfl | hx
      · left; exact List.mem_cons_self _ _
      · rcases ih hx with h' | h'
        · left; exact List.mem_cons_of_mem _ h'
        · right; exact h'

theorem mem_setRawCache (cache_enabled : Bool) (cache : RawCache)
    (key result : String) (x : String × String)
    (h : x ∈ setRawCache cache_enabled cache key result) :
    x ∈ cache ∨ x = (key, result) := by
  unfold setRawCache at h
  cases cache_enabled with
  | false => left; simpa using h
  | true =>
    simp only [if_true] at h
    by_cases hl : 1000 < (assocSet key result cache).length
    · rw [if_pos hl] at h
      exact mem_assocSet key result cache x (List.mem_of_mem_drop h)
    · rw [if_neg hl] at h
      exact mem_assocSet key result cache x h

theorem call_transport_cache_sources (cache_enabled : Bool) (cache : RawCache)
    (prompt : String) (system_prompt : Option String) (model : String)
    (use_cache : Bool) (transport : Except String String) (x : String × String)
    (h : x ∈ (call_transport cache_enabled cache prompt system_prompt model
        use_cache transport).2.1) :
    x ∈ cache ∨ ∃ t, transport = Except.ok t ∧ x.2 = pyStrip t := by
  cases ht : transport with
  | error e =>
    rw [ht] at h
    left
    simpa [call_transport] using h
  | ok t =>
    rw [ht] at h
    simp only [call_transport] at h
    cases use_cache with
    | false => left; simpa using h
    | true =>
      simp only [if_true] at h
      rcases mem_setRawCache cache_enabled cache _ _ x h with h' | h'
      · left; exact h'
      · right; exact ⟨t, rfl, by rw [h']⟩

theorem stepRaw_cache_sources (cache_enabled : Bool) (cache : RawCache)
    (ev : RawEvent) (x : String × String)
    (h : x ∈ (stepRaw cache_enabled cache ev).2.1) :
    x ∈ cache ∨ ∃ t, ev.transport = Except.ok t ∧ x.2 = pyStrip t := by
  cases hc : (if ev.use_cache then
      checkRawCache cache_enabled cache
        (rawCacheKey ev.prompt ev.system_prompt ev.model)
    else Option.none) with
  | some v =>
    by_cases hv : v = ""
    · have heq : stepRaw cache_enabled cache ev
          = call_transport cache_enabled cache ev.prompt ev.system_prompt ev.model
            ev.use_cache ev.transport := by
        simp [stepRaw, call_async, hc, hv]
      rw [heq] at h
      exact call_transport_cache_sources _ _ _ _ _ _ _ x h
    · have heq : stepRaw cache_enabled cache ev = (some v, cache, false) := by
        simp [stepRaw, call_async, hc, hv]
      rw [heq] at h
      left
      exact h
  | none =>
    have heq : stepRaw cache_enabled cache ev
        = call_transport cache_enabled cache ev.prompt ev.system_prompt ev.model
          ev.use_cache ev.transport := by
      simp [stepRaw, call_async, hc]
    rw [heq] at h
    exact call_transport_cache_sources _ _ _ _ _ _ _ x h

theorem runRawFrom_sources (cache_enabled : Bool) :
    ∀ (evs : List RawEvent) (c : RawCache) (entry : String × String),
      entry ∈ evs.foldl (fun c ev => (stepRaw cache_enabled c ev).2.1) c →
      entry ∈ c ∨ ∃ ev ∈ evs, ∃ t, ev.transport = Except.ok t ∧ entry.2 = pyStrip t := by
  intro evs
  induction evs with
  | nil => intro c entry h; left; simpa using h
  | cons ev rest ih =>
    intro c entry h
    simp only [List.foldl_cons] at h
    rcases ih _ entry h with hin | ⟨ev', hev', t, ht, he⟩
    · rcases stepRaw_cache_sources cache_enabled c ev entry hin with hin' | ⟨t, ht, he⟩
      · left; exact hin'
      · right; exact ⟨ev, List.mem_cons_self _ _, t, ht, he⟩
    · right; exact ⟨ev', List.mem_cons_of_mem _ hev', t, ht, he⟩

/-- C9: (1) every entry of the raw-call cache after any sequence of calls
is the stripped text of some successful call; (2) a failing call never
writes to the cache; (3) a truthy cache hit returns the cached non-empty
text without touching the transport; (4) a cached empty string is treated
as a miss and the transport is exercised. -/
theorem raw_cache_hit_from_success (cache_enabled : Bool) :
    (∀ (evs : List RawEvent) (entry : String × String),
      entry ∈ runRaw cache_enabled evs →
      ∃ ev ∈ evs, ∃ t, ev.transport = Except.ok t ∧ entry.2 = pyStrip t) ∧
    (∀ (cache : RawCache) (ev : RawEvent) (e : String),
      ev.transport = Except.error e →
      (stepRaw cache_enabled cache ev).2.1 = cache) ∧
    (∀ (cache : RawCache) (ev : RawEvent) (v : String),
      ev.use_cache = true →
      checkRawCache cache_enabled cache
        (rawCacheKey ev.prompt ev.system_prompt ev.model) = some v →
      v ≠ "" →
      stepRaw cache_enabled cache ev = (some v, cache, false)) ∧
    (∀ (cache : RawCache) (ev : RawEvent),
      ev.use_cache = true →
      checkRawCache cache_enabled cache
        (rawCacheKey ev.prompt ev.system_prompt ev.model) = some "" →
      (stepRaw cache_enabled cache ev).2.2 = true) := by
  refine ⟨?_, ?_, ?_, ?_⟩
  · intro evs entry h
    rcases runRawFrom_sources cache_enabled evs [] entry h with h' | h'
    · cases h'
    · exact h'
  · intro cache ev e ht
    cases hc : (if ev.use_cache then
        checkRawCache cache_enabled cache
          (rawCacheKey ev.prompt ev.system_prompt ev.model)
      else Option.none) with
    | some v =>
      by_cases hv : v = "" <;>
        simp [stepRaw, call_async, hc, hv, call_transport, ht]
    | none => simp [stepRaw, call_async, hc, call_transport, ht]
  · intro cache ev v hu hcheck hv
    simp [stepRaw, call_async, hu, hcheck, hv]
  · intro cache ev hu hcheck
    cases ht : ev.transport <;>
      simp [stepRaw, call_async, hu, hcheck, call_transport, ht]

/-- Witness for C9 at a one-call trace whose transport succeeds with
`" hello "`, plus concrete applications of the failure, hit and
empty-hit parts. -/
theorem raw_cache_hit_from_success_witness :
    (∃ ev ∈ [(⟨"p", Option.none, "sonnet", true, Except.ok " hello "⟩ : RawEvent)],
      ∃ t, ev.transport = Except.ok t ∧
        ((rawCacheKey "p" Option.none "sonnet", "hello") : String × String).2
          = pyStrip t) ∧
    (stepRaw true [("k", "old")]
      ⟨"q", Option.none, "haiku", true, Except.error "boom"⟩).2.1 = [("k", "old")] ∧
    stepRaw true [(rawCacheKey "p" Option.none "sonnet", "hello")]
      ⟨"p", Option.none, "sonnet", true, Except.error "down"⟩
      = (some "hello", [(rawCacheKey "p" Option.none "sonnet", "hello")], false) ∧
    (stepRaw true [(rawCacheKey "p" Option.none "sonnet", "")]
      ⟨"p", Option.none, "sonnet", true, Except.ok "x"⟩).2.2 = true :=
  ⟨(raw_cache_hit_from_success true).1
      [⟨"p", Option.none, "sonnet", true, Except.ok " hello "⟩]
      (rawCacheKey "p" Option.none "sonnet", "hello") (by decide),
   (raw_cache_hit_from_success true).2.1 [("k", "old")]
      ⟨"q", Option.none, "haiku", true, Except.error "boom"⟩ "boom" rfl,
   (raw_cache_hit_from_success true).2.2.1
      [(rawCacheKey "p" Option.none "sonnet", "hello")]
      ⟨"p", Option.none, "sonnet", true, Except.error "down"⟩ "hello" rfl (by decide)
      (by decide),
   (raw_cache_hit_from_success true).2.2.2
      [(rawCacheKey "p" Option.none "sonnet", "")]
      ⟨"p", Option.none, "sonnet", true, Except.ok "x"⟩ rfl (by decide)⟩

/-! ## Batch scheduler (src/pipeline/batch_processor.py)

`process_batch` builds one task per row (`enumerate`), runs them under
`asyncio.gather(*tasks, return_exceptions=True)` — which returns results
in task order regardless of completion order — and then replaces each
captured exception by an error record (lines 68-79).  The pipeline
execution of row `i` is abstracted as `exec i row`, returning the record
or the exception `gather` captured. -/

/-- One input row: the dict from `df.to_dict('records')`. -/
abbrev Row := List (String × PyVal)

/-- An output record of `process_batch`: the dict returned by the row's
pipeline execution, or the error record built at lines 72-76. -/
inductive BatchRecord (R : Type) where
  | ok (record : R)
  | errRec (error : String) (vendor_name product_name : PyVal)

/-- Python `row.get(key, "")`. -/
def rowGetStr (row : Row) (k : String) : PyVal :=
  match assocFind k row with
  | some v => v
  | Option.none => PyVal.str ""

def process_batch_from {R : Type} (exec : Nat → Row → Except String R) :
    Nat → List Row → List (BatchRecord R)
  | _, [] => []
  | i, row :: rest =>
    (match exec i row with
     | Except.ok r => BatchRecord.ok r
     | Except.error msg =>
       BatchRecord.errRec msg (rowGetStr row "vendor_name")
         (rowGetStr row "product_name"))
    :: process_batch_from exec (i + 1) rest

/-- Embedding of `BatchProcessor.process_batch` (batch_processor.py lines 45-80). -/
def process_batch {R : Type} (rows : List Row)
    (exec : Nat → Row → Except String R) : List (BatchRecord R) :=
  process_batch_from exec 0 rows

theorem process_batch_from_length {R : Type} (exec : Nat → Row → Except String R) :
    ∀ (rows : List Row) (i : Nat),
      (process_batch_from exec i rows).length = rows.length := by
  intro rows
  induction rows with
  | nil => intro i; rfl
  | cons row rest ih => intro i; simp [process_batch_from, ih]

theorem process_batch_from_get {R : Type} (exec : Nat → Row → Except String R) :
    ∀ (rows : List Row) (i j : Nat) (row : Row), rows[j]? = some row →
      (process_batch_from exec i rows)[j]? = some
        (match exec (i + j) row with
         | Except.ok r => BatchRecord.ok r
         | Except.error msg =>
           BatchRecord.errRec msg (rowGetStr row "vendor_name")
             (rowGetStr row "product_name")) := by
  intro rows
  induction rows with
  | nil => intro i j row h; simp at h
  | cons r0 rest ih =>
    intro i j row h
    cases j with
    | zero =>
      simp only [List.getElem?_cons_zero, Option.some.injEq] at h
      subst h
      simp [process_batch_from]
    | succ j' =>
      simp only [List.getElem?_cons_succ] at h
      have := ih (i + 1) j' row h
      simpa [process_batch_from, Nat.add_assoc, Nat.add_comm 1 j'] using this

/-- C3: the batch output has exactly one record per input row, at the
row's original index; a row whose pipeline execution raised becomes an
error record carrying `error`, `vendor_name` and `product_name`, and every
other row's record is exactly its own pipeline result. -/
theorem batch_order_and_isolation {R : Type} (rows : List Row)
    (exec : Nat → Row → Except String R) :
    (process_batch rows exec).length = rows.length ∧
    ∀ (i : Nat) (row : Row), rows[i]? = some row →
      (process_batch rows exec)[i]? = some
        (match exec i row with
         | Except.ok r => BatchRecord.ok r
         | Except.error msg =>
           BatchRecord.errRec msg (rowGetStr row "vendor_name")
             (rowGetStr row "product_name")) := by
  constructor
  · exact process_batch_from_length exec rows 0
  · intro i row h
    simpa using process_batch_from_get exec rows 0 i row h

/-- Witness for C3: two rows, the first of which raises; the output keeps
both indices, with the error record at index 0. -/
theorem batch_order_and_isolation_witness :
    (process_batch
      [[("vendor_name", PyVal.str "Acme"), ("product_name", PyVal.str "Widget")], []]
      (fun i _ => if i = 0 then Except.error "boom" else Except.ok (42 : Nat))).length = 2 ∧
    (process_batch
      [[("vendor_name", PyVal.str "Acme"), ("product_name", PyVal.str "Widget")], []]
      (fun i _ => if i = 0 then Except.error "boom" else Except.ok (42 : Nat)))[0]?
      = some (BatchRecord.errRec "boom" (PyVal.str "Acme") (PyVal.str "Widget")) ∧
    (process_batch
      [[("vendor_name", PyVal.str "Acme"), ("product_name", PyVal.str "Widget")], []]
      (fun i _ => if i = 0 then Except.error "boom" else Except.ok (42 : Nat)))[1]?
      = some (BatchRecord.ok 42) :=
  ⟨(batch_order_and_isolation
      [[("vendor_name", PyVal.str "Acme"), ("product_name", PyVal.str "Widget")], []]
      (fun i _ => if i = 0 then Except.error "boom" else Except.ok (42 : Nat))).1,
   (batch_order_and_isolation
      [[("vendor_name", PyVal.str "Acme"), ("product_name", PyVal.str "Widget")], []]
      (fun i _ => if i = 0 then Except.error "boom" else Except.ok (42 : Nat))).2 0
      [("vendor_name", PyVal.str "Acme"), ("product_name", PyVal.str "Widget")] rfl,
   (batch_order_and_isolation
      [[("vendor_name", PyVal.str "Acme"), ("product_name", PyVal.str "Widget")], []]
      (fun i _ => if i = 0 then Except.error "boom" else Except.ok (42 : Nat))).2 1 [] rfl⟩

/-! ## Row state and `format_output_node` (src/pipeline/state.py, nodes.py) -/

/-- A taxonomy match entry: the dict `{"Taxonomy Name": s}` that
`find_taxonomy_matches_node` constructs. -/
structure TaxEntry where
  taxonomy_name : String
deriving Inhabited, DecidableEq

/-- An attribute match entry: the dict `{"Attribute Name": s}`. -/
structure AttrEntry where
  attribute_name : String
deriving Inhabited, DecidableEq

/-- A platform match entry: the dict `{"Taxonomy Code": s}`. -/
structure PlatEntry where
  taxonomy_code : String
deriving Inhabited, DecidableEq

/-- Embedding of `VendorProductState` (state.py).  A `NotRequired[Optional[X]]` field is
`Option (Option X)`: the outer layer is key presence, the inner an
explicit `None` value.  `retry_count` and `processing_time` play no role
in the claims and are omitted. -/
structure RowState where
  row_id : String
  vendor_name : String
  vendor_url : String
  product_name : String
  product_url : String
  vendor_details : Option (Option PyDict)
  product_details : Option (Option PyDict)
  software_type : Option (Option String)
  taxonomy_matches : Option (Option (List TaxEntry))
  attribute_matches : Option (Option (List AttrEntry))
  platform_matches : Option (Option (List PlatEntry))
  errors : List String

/-- Python `state.get("vendor_details", {}) or {}`: a missing key, an explicit
`None` and an empty dict all give `{}`. -/
def effDict (o : Option (Option PyDict)) : PyDict :=
  match o with
  | some (some d) => d
  | _ => []

/-- Python `state.get(key, [])` for the match-list fields, in the cases where the
value is not an explicit `None`. -/
def effList {γ : Type} (o : Option (Option (List γ))) : List γ :=
  match o with
  | some (some l) => l
  | _ => []

def NAv : PyVal := PyVal.str "N/A"

/-- Python `l[0].get(name, "N/A") if len(l) > 0 else "N/A"` for a match-entry
list with projection `name`. -/
def idx0Name {γ : Type} (name : γ → String) : List γ → String
  | e :: _ => name e
  | [] => "N/A"

/-- Python `l[1].get(name, "N/A") if len(l) > 1 else "N/A"`. -/
def idx1Name {γ : Type} (name : γ → String) : List γ → String
  | _ :: e :: _ => name e
  | _ => "N/A"

/-- Python `l[2].get(name, "N/A") if len(l) > 2 else "N/A"`. -/
def idx2Name {γ : Type} (name : γ → String) : List γ → String
  | _ :: _ :: e :: _ => name e
  | _ => "N/A"

/-- The flat output record (the dict literal of nodes.py lines 467-504). -/
structure OutRecord where
  vendor_name : String
  vendor_url : String
  product_name : String
  product_url : String
  legal_vendor_name : PyVal
  official_vendor_website : PyVal
  acquiring_company : PyVal
  wikipedia_link : PyVal
  linkedin_profile : PyVal
  founded_year : PyVal
  product_type : PyVal
  product_users : PyVal
  product_tasks : PyVal
  product_features : PyVal
  taxonomy_match_1 : String
  taxonomy_match_2 : String
  attribute_1 : String
  attribute_2 : String
  attribute_3 : String
  platform_1 : String
  platform_2 : String
  errors : String
  row_id : String
deriving Inhabited

/-- The dict literal of `format_output_node`: `.get(key, "N/A")` on the
effective detail dicts, indexing guarded by `len(...)` on the match lists,
and `"; ".join(errors)` (`"None"` when the list is empty/falsy). -/
def buildOutRecord (st : RowState) : OutRecord :=
  let vd := effDict st.vendor_details
  let pd := effDict st.product_details
  let tm := effList st.taxonomy_matches
  let am := effList st.attribute_matches
  let pm := effList st.platform_matches
  { vendor_name := st.vendor_name
    vendor_url := st.vendor_url
    product_name := st.product_name
    product_url := st.product_url
    legal_vendor_name := pyDictGet vd "Legal_Vendor_Name" NAv
    official_vendor_website := pyDictGet vd "Official_Vendor_Website" NAv
    acquiring_company := pyDictGet vd "Acquiring_Company_Name" NAv
    wikipedia_link := pyDictGet vd "Wikipedia_link" NAv
    linkedin_profile := pyDictGet vd "LinkedIn_profile" NAv
    founded_year := pyDictGet vd "Founded_Year" NAv
    product_type := pyDictGet pd "Type_of_Product" NAv
    product_users := pyDictGet pd "Type_of_users" NAv
    product_tasks := pyDictGet pd "Tasks_a_user_can_perform" NAv
    product_features := pyDictGet pd "Product_features" NAv
    taxonomy_match_1 := idx0Name TaxEntry.taxonomy_name tm
    taxonomy_match_2 := idx1Name TaxEntry.taxonomy_name tm
    attribute_1 := idx0Name AttrEntry.attribute_name am
    attribute_2 := idx1Name AttrEntry.attribute_name am
    attribute_3 := idx2Name AttrEntry.attribute_name am
    platform_1 := idx0Name PlatEntry.taxonomy_code pm
    platform_2 := idx1Name PlatEntry.taxonomy_code pm
    errors := if st.errors.isEmpty then "None"
      else String.intercalate "; " st.errors
    row_id := st.row_id }

/-- Embedding of `format_output_node` (nodes.py lines 453-506).
`state.get("taxonomy_matches", [])` has no `or []` guard, so a match-list
field explicitly present as `None` reaches `len(...)` and raises
`TypeError` (taxonomy first, then attribute, then platform, following the
evaluation order of the dict literal); every other state produces the
record. -/
def format_output_node (st : RowState) : Except String OutRecord :=
  match st.taxonomy_matches, st.attribute_matches, st.platform_matches with
  | some Option.none, _, _ =>
    Except.error "TypeError: object of type NoneType has no len (taxonomy_matches)"
  | _, some Option.none, _ =>
    Except.error "TypeError: object of type NoneType has no len (attribute_matches)"
  | _, _, some Option.none =>
    Except.error "TypeError: object of type NoneType has no len (platform_matches)"
  | _, _, _ => Except.ok (buildOutRecord st)

theorem format_output_ok_of_not_none (st : RowState)
    (h1 : st.taxonomy_matches ≠ some Option.none)
    (h2 : st.attribute_matches ≠ some Option.none)
    (h3 : st.platform_matches ≠ some Option.none) :
    format_output_node st = Except.ok (buildOutRecord st) := by
  rcases htm : st.taxonomy_matches with _ | (_ | tm) <;>
    rcases ham : st.attribute_matches with _ | (_ | am) <;>
      rcases hpm : st.platform_matches with _ | (_ | pm) <;>
        first
        | exact absurd htm h1
        | exact absurd ham h2
        | exact absurd hpm h3
        | simp [format_output_node, htm, ham, hpm]

/-- C5 (counterexample): a details key explicitly holding JSON `null` is
copied through as `None` rather than replaced by "N/A", and a match-list
field explicitly set to `None` makes the stage raise a `TypeError` instead
of producing a record. -/
theorem format_output_not_na_on_null :
    (∃ r, format_output_node
        ⟨"r1", "Acme", "acme.com", "Widget", "acme.com/w",
         some (some [("Legal_Vendor_Name", PyVal.null)]),
         Option.none, Option.none, Option.none, Option.none, Option.none, []⟩
      = Except.ok r ∧
      r.legal_vendor_name = PyVal.null ∧ r.legal_vendor_name ≠ PyVal.str "N/A") ∧
    (∃ msg, format_output_node
        ⟨"r2", "Acme", "acme.com", "Widget", "acme.com/w",
         Option.none, Option.none, Option.none, some Option.none,
         Option.none, Option.none, []⟩
      = Except.error msg) := by
  constructor
  · refine ⟨_, rfl, rfl, ?_⟩
    intro h
    simp [buildOutRecord, pyDictGet, assocFind, effDict, NAv] at h
  · exact ⟨_, rfl⟩

/-- C5 (amended): for every state with the required input fields whose
match-list fields are not explicitly `None`, `format_output_node` succeeds
and produces a complete record; a *missing* enrichment key is replaced by
"N/A" (a key present with `null` is copied through); the `errors` field is
the accumulated errors joined with "; ", or "None" when the list is
empty. -/
theorem format_output_amended (st : RowState)
    (h1 : st.taxonomy_matches ≠ some Option.none)
    (h2 : st.attribute_matches ≠ some Option.none)
    (h3 : st.platform_matches ≠ some Option.none) :
    ∃ r, format_output_node st = Except.ok r ∧
      r.vendor_name = st.vendor_name ∧
      r.row_id = st.row_id ∧
      (assocFind "Legal_Vendor_Name" (effDict st.vendor_details) = Option.none →
        r.legal_vendor_name = PyVal.str "N/A") ∧
      (assocFind "Type_of_Product" (effDict st.product_details) = Option.none →
        r.product_type = PyVal.str "N/A") ∧
      (effList st.taxonomy_matches = [] →
        r.taxonomy_match_1 = "N/A" ∧ r.taxonomy_match_2 = "N/A") ∧
      (effList st.attribute_matches = [] →
        r.attribute_1 = "N/A" ∧ r.attribute_2 = "N/A" ∧ r.attribute_3 = "N/A") ∧
      r.errors = (if st.errors.isEmpty then "None"
        else String.intercalate "; " st.errors) := by
  refine ⟨buildOutRecord st, format_output_ok_of_not_none st h1 h2 h3,
    rfl, rfl, ?_, ?_, ?_, ?_, rfl⟩
  · intro hfind
    simp [buildOutRecord, pyDictGet, hfind, NAv]
  · intro hfind
    simp [buildOutRecord, pyDictGet, hfind, NAv]
  · intro hnil
    constructor <;> simp [buildOutRecord, hnil, idx0Name, idx1Name]
  · intro hnil
    refine ⟨?_, ?_, ?_⟩ <;>
      simp [buildOutRecord, hnil, idx0Name, idx1Name, idx2Name]

/-- A concrete partially-populated state: vendor fetch failed, product
details explicitly `None`, taxonomy matches an empty list, attribute and
platform matches missing. -/
def c5WitnessState : RowState :=
  ⟨"r3", "Acme", "acme.com", "Widget", "acme.com/w",
   Option.none, some Option.none, Option.none,
   some (some []), Option.none, Option.none, ["Vendor info fetch failed"]⟩

/-- Witness for C5 (amended) at `c5WitnessState`. -/
theorem format_output_amended_witness :
    ∃ r, format_output_node c5WitnessState = Except.ok r ∧
      r.vendor_name = c5WitnessState.vendor_name ∧
      r.row_id = c5WitnessState.row_id ∧
      (assocFind "Legal_Vendor_Name" (effDict c5WitnessState.vendor_details)
          = Option.none →
        r.legal_vendor_name = PyVal.str "N/A") ∧
      (assocFind "Type_of_Product" (effDict c5WitnessState.product_details)
          = Option.none →
        r.product_type = PyVal.str "N/A") ∧
      (effList c5WitnessState.taxonomy_matches = [] →
        r.taxonomy_match_1 = "N/A" ∧ r.taxonomy_match_2 = "N/A") ∧
      (effList c5WitnessState.attribute_matches = [] →
        r.attribute_1 = "N/A" ∧ r.attribute_2 = "N/A" ∧ r.attribute_3 = "N/A") ∧
      r.errors = (if c5WitnessState.errors.isEmpty then "None"
        else String.intercalate "; " c5WitnessState.errors) :=
  format_output_amended c5WitnessState (by simp [c5WitnessState])
    (by simp [c5WitnessState]) (by simp [c5WitnessState])

/-! ## Matching nodes (src/pipeline/nodes.py)

`find_taxonomy_matches_node` and `find_attribute_matches_node` are
embedded with the gateway call, JSON extraction and the dictionary field
extraction abstracted as a `parsed` oracle holding the raw labels the
stage obtained, or `none` when the response was absent, unparseable, or a
label was not a string — every such path in the source returns the "N/A"
entries without writing the semantic cache.  The membership validation
and fuzzy fallback, which the claims are about, are embedded verbatim
(`validateTaxonomyLabel`, `validateAttributeLabel`). -/

def NA_taxonomy_matches : List TaxEntry := [⟨"N/A"⟩, ⟨"N/A"⟩]

def NA_attribute_matches : List AttrEntry := [⟨"N/A"⟩, ⟨"N/A"⟩, ⟨"N/A"⟩]

def taxonomyCacheParams (software_type product_name : String) : CacheParams :=
  [("type", "taxonomy_match"), ("software_type", software_type),
   ("product_name", product_name)]

def attributeCacheParams (software_type product_name : String) : CacheParams :=
  [("type", "attribute_match"), ("software_type", software_type),
   ("product_name", product_name)]

/-- The LLM branch of `find_taxonomy_matches_node` (nodes.py lines
245-305): validate both labels, cache the result for 24h. -/
def taxonomyCallPath (taxonomy_list : List String)
    (cache1 : SemCache (List TaxEntry)) (now : Nat)
    (software_type product_name : String) (parsed : Option (String × String)) :
    List TaxEntry × SemCache (List TaxEntry) :=
  match parsed with
  | Option.none => (NA_taxonomy_matches, cache1)
  | some (m1, m2) =>
    let result : List TaxEntry :=
      [⟨validateTaxonomyLabel m1 taxonomy_list⟩,
       ⟨validateTaxonomyLabel m2 taxonomy_list⟩]
    (result, CacheManager.set cache1 now result (24 * 3600)
      (taxonomyCacheParams software_type product_name))

/-- Embedding of `find_taxonomy_matches_node` (nodes.py lines 183-305): "N/A" pair when
the taxonomy list is empty; a truthy cached result short-circuits
(`if cached:`); otherwise the LLM branch. -/
def find_taxonomy_matches_node (taxonomy_list : List String)
    (cache : SemCache (List TaxEntry)) (now : Nat)
    (software_type product_name : String) (parsed : Option (String × String)) :
    List TaxEntry × SemCache (List TaxEntry) :=
  if taxonomy_list.isEmpty then (NA_taxonomy_matches, cache)
  else
    match CacheManager.get cache now
        (taxonomyCacheParams software_type product_name) with
    | (some cached, cache1) =>
      if cached.isEmpty then
        taxonomyCallPath taxonomy_list cache1 now software_type product_name parsed
      else (cached, cache1)
    | (Option.none, cache1) =>
      taxonomyCallPath taxonomy_list cache1 now software_type product_name parsed

/-- The LLM branch of `find_attribute_matches_node` (nodes.py lines
346-428): exact-membership validation only, cache the result for 24h. -/
def attributeCallPath (available_attributes : List String)
    (cache1 : SemCache (List AttrEntry)) (now : Nat)
    (software_type product_name : String)
    (parsed : Option (String × String × String)) :
    List AttrEntry × SemCache (List AttrEntry) :=
  match parsed with
  | Option.none => (NA_attribute_matches, cache1)
  | some (a1, a2, a3) =>
    let result : List AttrEntry :=
      [⟨validateAttributeLabel a1 available_attributes⟩,
       ⟨validateAttributeLabel a2 available_attributes⟩,
       ⟨validateAttributeLabel a3 available_attributes⟩]
    (result, CacheManager.set cache1 now result (24 * 3600)
      (attributeCacheParams software_type product_name))

/-- Embedding of `find_attribute_matches_node` (nodes.py lines 312-428). -/
def find_attribute_matches_node (available_attributes : List String)
    (cache : SemCache (List AttrEntry)) (now : Nat)
    (software_type product_name : String)
    (parsed : Option (String × String × String)) :
    List AttrEntry × SemCache (List AttrEntry) :=
  if available_attributes.isEmpty then (NA_attribute_matches, cache)
  else
    match CacheManager.get cache now
        (attributeCacheParams software_type product_name) with
    | (some cached, cache1) =>
      if cached.isEmpty then
        attributeCallPath available_attributes cache1 now software_type
          product_name parsed
      else (cached, cache1)
    | (Option.none, cache1) =>
      attributeCallPath available_attributes cache1 now software_type
        product_name parsed

theorem mem_assocErase {κ β : Type} [DecidableEq κ] (k : κ) (l : List (κ × β))
    (x : κ × β) (h : x ∈ assocErase k l) : x ∈ l := by
  induction l with
  | nil => simp [assocErase] at h
  | cons p t ih =>
    by_cases hp : p.1 = k
    · rw [assocErase, if_pos hp] at h
      exact List.mem_cons_of_mem _ h
    · rw [assocErase, if_neg hp] at h
      rcases List.mem_cons.mp h with rfl | hx
      · exact List.mem_cons_self _ _
      · exact List.mem_cons_of_mem _ (ih hx)

theorem assocFind_mem {κ β : Type} [DecidableEq κ] (k : κ) (l : List (κ × β))
    (v : β) (h : assocFind k l = some v) : (k, v) ∈ l := by
  induction l with
  | nil => simp [assocFind] at h
  | cons p t ih =>
    obtain ⟨pk, pv⟩ := p
    by_cases hp : pk = k
    · subst hp
      rw [assocFind, if_pos rfl] at h
      obtain rfl := Option.some.inj h
      exact List.mem_cons_self _ _
    · rw [assocFind, if_neg hp] at h
      exact List.mem_cons_of_mem _ (ih h)

theorem semGet_entries_sub {α : Type} (c : SemCache α) (now : Nat)
    (ps : CacheParams) (kv : CacheParams × SemEntry α)
    (h : kv ∈ (CacheManager.get c now ps).2.entries) : kv ∈ c.entries := by
  cases hf : assocFind (canonParams ps) c.entries with
  | none =>
    have heq : (CacheManager.get c now ps).2.entries = c.entries := by
      simp [CacheManager.get, hf]
    rw [heq] at h
    exact h
  | some entry =>
    by_cases hex : now < entry.expires_at
    · have heq : (CacheManager.get c now ps).2.entries = c.entries := by
        simp [CacheManager.get, hf, hex]
      rw [heq] at h
      exact h
    · have heq : (CacheManager.get c now ps).2.entries
          = assocErase (canonParams ps) c.entries := by
        simp [CacheManager.get, hf, hex]
      rw [heq] at h
      exact mem_assocErase _ _ _ h

theorem semGet_hit_mem {α : Type} (c : SemCache α) (now : Nat)
    (ps : CacheParams) (v : α) (h : (CacheManager.get c now ps).1 = some v) :
    ∃ kv ∈ c.entries, kv.2.value = v := by
  cases hf : assocFind (canonParams ps) c.entries with
  | none => simp [CacheManager.get, hf] at h
  | some entry =>
    by_cases hex : now < entry.expires_at
    · have hv : entry.value = v := by
        simpa [CacheManager.get, hf, hex] using h
      exact ⟨(canonParams ps, entry), assocFind_mem _ _ _ hf, hv⟩
    · simp [CacheManager.get, hf, hex] at h

theorem semSet_entries {α : Type} (c : SemCache α) (now : Nat) (v : α)
    (ttl : Nat) (ps : CacheParams) (kv : CacheParams × SemEntry α)
    (h : kv ∈ (CacheManager.set c now v ttl ps).entries) :
    kv ∈ c.entries ∨ kv.2.value = v := by
  simp only [CacheManager.set] at h
  rcases mem_assocSet _ _ _ _ h with h' | h'
  · left; exact h'
  · right; rw [h']

/-! ## The exact-match invariant (C1) -/

/-- Every entry of a taxonomy match list is the sentinel or a verbatim
member of the taxonomy list. -/
def TaxListOK (taxonomy_list : List String) (l : List TaxEntry) : Prop :=
  ∀ e ∈ l, e.taxonomy_name = "N/A" ∨ e.taxonomy_name ∈ taxonomy_list

/-- Every value held by the taxonomy-match semantic cache satisfies
`TaxListOK` (it was produced by an earlier validated run). -/
def TaxCacheOK (taxonomy_list : List String)
    (cache : SemCache (List TaxEntry)) : Prop :=
  ∀ kv ∈ cache.entries, TaxListOK taxonomy_list kv.2.value

def AttrListOK (available_attributes : List String) (l : List AttrEntry) : Prop :=
  ∀ e ∈ l, e.attribute_name = "N/A" ∨ e.attribute_name ∈ available_attributes

def AttrCacheOK (available_attributes : List String)
    (cache : SemCache (List AttrEntry)) : Prop :=
  ∀ kv ∈ cache.entries, AttrListOK available_attributes kv.2.value

theorem taxonomy_node_ok (taxonomy_list : List String)
    (cache : SemCache (List TaxEntry)) (now : Nat)
    (software_type product_name : String) (parsed : Option (String × String))
    (hc : TaxCacheOK taxonomy_list cache) :
    TaxListOK taxonomy_list
      (find_taxonomy_matches_node taxonomy_list cache now software_type
        product_name parsed).1 ∧
    TaxCacheOK taxonomy_list
      (find_taxonomy_matches_node taxonomy_list cache now software_type
        product_name parsed).2 := by
  have hNA : TaxListOK taxonomy_list NA_taxonomy_matches := by
    intro e he
    left
    rcases List.mem_cons.mp he with rfl | he'
    · rfl
    · rcases List.mem_cons.mp he' with rfl | he''
      · rfl
      · cases he''
  have hcall : ∀ c1 : SemCache (List TaxEntry), TaxCacheOK taxonomy_list c1 →
      TaxListOK taxonomy_list
        (taxonomyCallPath taxonomy_list c1 now software_type product_name parsed).1 ∧
      TaxCacheOK taxonomy_list
        (taxonomyCallPath taxonomy_list c1 now software_type product_name parsed).2 := by
    intro c1 hc1
    cases hp : parsed with
    | none => simp only [taxonomyCallPath, hp]; exact ⟨hNA, hc1⟩
    | some mm =>
      obtain ⟨m1, m2⟩ := mm
      have hres : TaxListOK taxonomy_list
          [⟨validateTaxonomyLabel m1 taxonomy_list⟩,
           ⟨validateTaxonomyLabel m2 taxonomy_list⟩] := by
        intro e he
        rcases List.mem_cons.mp he with rfl | he'
        · exact validateTaxonomyLabel_mem_or_na m1 taxonomy_list
        · rcases List.mem_cons.mp he' with rfl | he''
          · exact validateTaxonomyLabel_mem_or_na m2 taxonomy_list
          · cases he''
      refine ⟨by simpa only [taxonomyCallPath, hp] using hres, ?_⟩
      intro kv hkv
      simp only [taxonomyCallPath, hp] at hkv
      rcases semSet_entries _ _ _ _ _ _ hkv with h' | h'
      · exact hc1 kv h'
      · rw [h']; exact hres
  by_cases hemp : taxonomy_list.isEmpty
  · have heq : find_taxonomy_matches_node taxonomy_list cache now software_type
        product_name parsed = (NA_taxonomy_matches, cache) := by
      simp [find_taxonomy_matches_node, hemp]
    rw [heq]
    exact ⟨hNA, hc⟩
  · rcases hg : CacheManager.get cache now
        (taxonomyCacheParams software_type product_name) with ⟨res, cache1⟩
    have hc1 : TaxCacheOK taxonomy_list cache1 := by
      intro kv hkv
      refine hc kv (semGet_entries_sub cache now
        (taxonomyCacheParams software_type product_name) kv ?_)
      rw [hg]
      exact hkv
    cases res with
    | none =>
      have heq : find_taxonomy_matches_node taxonomy_list cache now software_type
          product_name parsed
          = taxonomyCallPath taxonomy_list cache1 now software_type product_name
            parsed := by
        simp [find_taxonomy_matches_node, hemp, hg]
      rw [heq]
      exact hcall cache1 hc1
    | some cached =>
      by_cases hce : cached.isEmpty
      · have heq : find_taxonomy_matches_node taxonomy_list cache now software_type
            product_name parsed
            = taxonomyCallPath taxonomy_list cache1 now software_type product_name
              parsed := by
          simp [find_taxonomy_matches_node, hemp, hg, hce]
        rw [heq]
        exact hcall cache1 hc1
      · have heq : find_taxonomy_matches_node taxonomy_list cache now software_type
            product_name parsed = (cached, cache1) := by
          simp [find_taxonomy_matches_node, hemp, hg, hce]
        rw [heq]
        refine ⟨?_, hc1⟩
        have hhit : (CacheManager.get cache now
            (taxonomyCacheParams software_type product_name)).1 = some cached := by
          rw [hg]
        obtain ⟨kv, hkv, hval⟩ := semGet_hit_mem _ _ _ _ hhit
        intro e he
        exact hc kv hkv e (by rw [hval]; exact he)

theorem attribute_node_ok (available_attributes : List String)
    (cache : SemCache (List AttrEntry)) (now : Nat)
    (software_type product_name : String)
    (parsed : Option (String × String × String))
    (hc : AttrCacheOK available_attributes cache) :
    AttrListOK available_attributes
      (find_attribute_matches_node available_attributes cache now software_type
        product_name parsed).1 ∧
    AttrCacheOK available_attributes
      (find_attribute_matches_node available_attributes cache now software_type
        product_name parsed).2 := by
  have hNA : AttrListOK available_attributes NA_attribute_matches := by
    intro e he
    left
    rcases List.mem_cons.mp he with rfl | he'
    · rfl
    · rcases List.mem_cons.mp he' with rfl | he''
      · rfl
      · rcases List.mem_cons.mp he'' with rfl | he'''
        · rfl
        · cases he'''
  have hcall : ∀ c1 : SemCache (List AttrEntry), AttrCacheOK available_attributes c1 →
      AttrListOK available_attributes
        (attributeCallPath available_attributes c1 now software_type product_name
          parsed).1 ∧
      AttrCacheOK available_attributes
        (attributeCallPath available_attributes c1 now software_type product_name
          parsed).2 := by
    intro c1 hc1
    cases hp : parsed with
    | none => simp only [attributeCallPath, hp]; exact ⟨hNA, hc1⟩
    | some aa =>
      obtain ⟨a1, a2, a3⟩ := aa
      have hres : AttrListOK available_attributes
          [⟨validateAttributeLabel a1 available_attributes⟩,
           ⟨validateAttributeLabel a2 available_attributes⟩,
           ⟨validateAttributeLabel a3 available_attributes⟩] := by
        intro e he
        rcases List.mem_cons.mp he with rfl | he'
        · exact validateAttributeLabel_mem_or_na a1 available_attributes
        · rcases List.mem_cons.mp he' with rfl | he''
          · exact validateAttributeLabel_mem_or_na a2 available_attributes
          · rcases List.mem_cons.mp he'' with rfl | he'''
            · exact validateAttributeLabel_mem_or_na a3 available_attributes
            · cases he'''
      refine ⟨by simpa only [attributeCallPath, hp] using hres, ?_⟩
      intro kv hkv
      simp only [attributeCallPath, hp] at hkv
      rcases semSet_entries _ _ _ _ _ _ hkv with h' | h'
      · exact hc1 kv h'
      · rw [h']; exact hres
  by_cases hemp : available_attributes.isEmpty
  · have heq : find_attribute_matches_node available_attributes cache now
        software_type product_name parsed = (NA_attribute_matches, cache) := by
      simp [find_attribute_matches_node, hemp]
    rw [heq]
    exact ⟨hNA, hc⟩
  · rcases hg : CacheManager.get cache now
        (attributeCacheParams software_type product_name) with ⟨res, cache1⟩
    have hc1 : AttrCacheOK available_attributes cache1 := by
      intro kv hkv
      refine hc kv (semGet_entries_sub cache now
        (attributeCacheParams software_type product_name) kv ?_)
      rw [hg]
      exact hkv
    cases res with
    | none =>
      have heq : find_attribute_matches_node available_attributes cache now
          software_type product_name parsed
          = attributeCallPath available_attributes cache1 now software_type
            product_name parsed := by
        simp [find_attribute_matches_node, hemp, hg]
      rw [heq]
      exact hcall cache1 hc1
    | some cached =>
      by_cases hce : cached.isEmpty
      · have heq : find_attribute_matches_node available_attributes cache now
            software_type product_name parsed
            = attributeCallPath available_attributes cache1 now software_type
              product_name parsed := by
          simp [find_attribute_matches_node, hemp, hg, hce]
        rw [heq]
        exact hcall cache1 hc1
      · have heq : find_attribute_matches_node available_attributes cache now
            software_type product_name parsed = (cached, cache1) := by
          simp [find_attribute_matches_node, hemp, hg, hce]
        rw [heq]
        refine ⟨?_, hc1⟩
        have hhit : (CacheManager.get cache now
            (attributeCacheParams software_type product_name)).1 = some cached := by
          rw [hg]
        obtain ⟨kv, hkv, hval⟩ := semGet_hit_mem _ _ _ _ hhit
        intro e he
        exact hc kv hkv e (by rw [hval]; exact he)

theorem match_head_ok {γ : Type} (name : γ → String) (P : String → Prop)
    (l : List γ) (hl : ∀ e ∈ l, name e = "N/A" ∨ P (name e)) :
    idx0Name name l ≠ "N/A" → P (idx0Name name l) := by
  cases l with
  | nil => intro h; exact absurd rfl h
  | cons e rest =>
    intro h
    rcases hl e (List.mem_cons_self _ _) with hna | hp
    · exact absurd hna h
    · exact hp

theorem match_second_ok {γ : Type} (name : γ → String) (P : String → Prop)
    (l : List γ) (hl : ∀ e ∈ l, name e = "N/A" ∨ P (name e)) :
    idx1Name name l ≠ "N/A" → P (idx1Name name l) := by
  match l with
  | [] => intro h; exact absurd rfl h
  | [e1] => intro h; exact absurd rfl h
  | e1 :: e2 :: rest =>
    intro h
    rcases hl e2 (List.mem_cons_of_mem _ (List.mem_cons_self _ _)) with hna | hp
    · exact absurd hna h
    · exact hp

theorem match_third_ok {γ : Type} (name : γ → String) (P : String → Prop)
    (l : List γ) (hl : ∀ e ∈ l, name e = "N/A" ∨ P (name e)) :
    idx2Name name l ≠ "N/A" → P (idx2Name name l) := by
  match l with
  | [] => intro h; exact absurd rfl h
  | [e1] => intro h; exact absurd rfl h
  | [e1, e2] => intro h; exact absurd rfl h
  | e1 :: e2 :: e3 :: rest =>
    intro h
    rcases hl e3 (List.mem_cons_of_mem _
      (List.mem_cons_of_mem _ (List.mem_cons_self _ _))) with hna | hp
    · exact absurd hna h
    · exact hp

/-- C1: in a formatted record whose match lists came from the matching
nodes — run against any semantic caches whose stored values themselves
satisfy the invariant — every non-"N/A" taxonomy value is a verbatim
member of the taxonomy list, and every non-"N/A" attribute value a
verbatim member of the attribute list. -/
theorem exact_match_invariant
    (taxonomy_list available_attributes : List String)
    (ct : SemCache (List TaxEntry)) (ca : SemCache (List AttrEntry))
    (now1 now2 : Nat) (software_type product_name : String)
    (pt : Option (String × String)) (pa : Option (String × String × String))
    (hct : TaxCacheOK taxonomy_list ct)
    (hca : AttrCacheOK available_attributes ca)
    (st : RowState) (r : OutRecord)
    (htm : st.taxonomy_matches = some (some
      (find_taxonomy_matches_node taxonomy_list ct now1 software_type
        product_name pt).1))
    (ham : st.attribute_matches = some (some
      (find_attribute_matches_node available_attributes ca now2 software_type
        product_name pa).1))
    (hr : format_output_node st = Except.ok r) :
    (r.taxonomy_match_1 ≠ "N/A" → r.taxonomy_match_1 ∈ taxonomy_list) ∧
    (r.taxonomy_match_2 ≠ "N/A" → r.taxonomy_match_2 ∈ taxonomy_list) ∧
    (r.attribute_1 ≠ "N/A" → r.attribute_1 ∈ available_attributes) ∧
    (r.attribute_2 ≠ "N/A" → r.attribute_2 ∈ available_attributes) ∧
    (r.attribute_3 ≠ "N/A" → r.attribute_3 ∈ available_attributes) := by
  have hpm : st.platform_matches ≠ some Option.none := by
    intro hx
    simp [format_output_node, htm, ham, hx] at hr
  have h1 : st.taxonomy_matches ≠ some Option.none := by rw [htm]; simp
  have h2 : st.attribute_matches ≠ some Option.none := by rw [ham]; simp
  rw [format_output_ok_of_not_none st h1 h2 hpm] at hr
  have hrr := Except.ok.inj hr
  subst hrr
  have htax : TaxListOK taxonomy_list (effList st.taxonomy_matches) := by
    rw [htm]
    exact (taxonomy_node_ok taxonomy_list ct now1 software_type product_name
      pt hct).1
  have hattr : AttrListOK available_attributes (effList st.attribute_matches) := by
    rw [ham]
    exact (attribute_node_ok available_attributes ca now2 software_type
      product_name pa hca).1
  exact ⟨match_head_ok TaxEntry.taxonomy_name (· ∈ taxonomy_list) _ htax,
    match_second_ok TaxEntry.taxonomy_name (· ∈ taxonomy_list) _ htax,
    match_head_ok AttrEntry.attribute_name (· ∈ available_attributes) _ hattr,
    match_second_ok AttrEntry.attribute_name (· ∈ available_attributes) _ hattr,
    match_third_ok AttrEntry.attribute_name (· ∈ available_attributes) _ hattr⟩

def c1TaxonomyList : List String :=
  ["Software > Security > Identity and Access Management",
   "Software > Enterprise Applications > Customer Relationship Management Applications"]

def c1AttributeList : List String := ["Cloud", "SaaS", "Security"]

/-- A state whose match lists are literal outputs of the matching nodes:
one taxonomy label needing the fuzzy fallback, one failing it, and an
attribute triple with one non-member. -/
def c1WitnessState : RowState :=
  ⟨"row_0", "Salesforce", "salesforce.com", "Sales Cloud",
   "salesforce.com/products/sales-cloud",
   Option.none, Option.none, some (some "CRM Software"),
   some (some (find_taxonomy_matches_node c1TaxonomyList
     (emptySemCache (List TaxEntry)) 0 "CRM Software" "Sales Cloud"
     (some ("Identity and Access", "Nonexistent Category"))).1),
   some (some (find_attribute_matches_node c1AttributeList
     (emptySemCache (List AttrEntry)) 0 "CRM Software" "Sales Cloud"
     (some ("SaaS", "Blockchain Analytics", "Cloud"))).1),
   some (some [⟨"Software"⟩, ⟨"SaaS"⟩]), []⟩

/-- The record `format_output_node` produces for `c1WitnessState`. -/
def c1Record : OutRecord :=
  match format_output_node c1WitnessState with
  | Except.ok r => r
  | Except.error _ => default

/-- Witness for C1 at `c1WitnessState`. -/
theorem exact_match_invariant_witness :
    (c1Record.taxonomy_match_1 ≠ "N/A" →
      c1Record.taxonomy_match_1 ∈ c1TaxonomyList) ∧
    (c1Record.taxonomy_match_2 ≠ "N/A" →
      c1Record.taxonomy_match_2 ∈ c1TaxonomyList) ∧
    (c1Record.attribute_1 ≠ "N/A" → c1Record.attribute_1 ∈ c1AttributeList) ∧
    (c1Record.attribute_2 ≠ "N/A" → c1Record.attribute_2 ∈ c1AttributeList) ∧
    (c1Record.attribute_3 ≠ "N/A" → c1Record.attribute_3 ∈ c1AttributeList) :=
  exact_match_invariant c1TaxonomyList c1AttributeList
    (emptySemCache (List TaxEntry)) (emptySemCache (List AttrEntry)) 0 0
    "CRM Software" "Sales Cloud"
    (some ("Identity and Access", "Nonexistent Category"))
    (some ("SaaS", "Blockchain Analytics", "Cloud"))
    (by intro kv hkv; cases hkv) (by intro kv hkv; cases hkv)
    c1WitnessState c1Record rfl rfl rfl

/-- C2 (counterexample): a non-member attribute label for which the
claimed case-insensitive substring fallback *would* find a catalog entry
(as the taxonomy validation of the same label shows) is nevertheless
replaced by "N/A" by the attribute validation — the two matchers do not
share the fallback. -/
theorem attribute_validation_no_fuzzy :
    ("Identity and Access" ∉
      ["Software > Security > Identity and Access Management"]) ∧
    validateTaxonomyLabel "Identity and Access"
      ["Software > Security > Identity and Access Management"]
      = "Software > Security > Identity and Access Management" ∧
    validateAttributeLabel "Identity and Access"
      ["Software > Security > Identity and Access Management"] = "N/A" := by
  refine ⟨by decide, ?_, by decide⟩
  decide

/-- C2 (amended): only taxonomy matching resolves a non-member label by
the case-insensitive substring scan (first catalog entry in original
order where either string contains the other, else "N/A"); attribute
matching replaces every non-member by "N/A" with no fuzzy fallback. -/
theorem validation_fallback_amended (lbl : String) (cat : List String)
    (h : lbl ∉ cat) :
    validateAttributeLabel lbl cat = "N/A" ∧
    ((∃ pre t post, cat = pre ++ t :: post ∧ fuzzyHit lbl t = true ∧
       (∀ u ∈ pre, fuzzyHit lbl u = false) ∧ validateTaxonomyLabel lbl cat = t) ∨
     ((∀ u ∈ cat, fuzzyHit lbl u = false) ∧
       validateTaxonomyLabel lbl cat = "N/A")) := by
  have hv : validateTaxonomyLabel lbl cat = fuzzyScan lbl cat := by
    simp [validateTaxonomyLabel, h]
  refine ⟨by simp [validateAttributeLabel, h], ?_⟩
  rw [hv]
  exact fuzzyScan_first_hit lbl cat

def c2Catalog : List String :=
  ["Software > Security > Identity and Access Management"]

/-- Witness for C2 (amended) at the specification's own fuzzy-fallback
test vector. -/
theorem validation_fallback_amended_witness :
    validateAttributeLabel "Identity and Access" c2Catalog = "N/A" ∧
    ((∃ pre t post, c2Catalog = pre ++ t :: post ∧
       fuzzyHit "Identity and Access" t = true ∧
       (∀ u ∈ pre, fuzzyHit "Identity and Access" u = false) ∧
       validateTaxonomyLabel "Identity and Access" c2Catalog = t) ∨
     ((∀ u ∈ c2Catalog, fuzzyHit "Identity and Access" u = false) ∧
       validateTaxonomyLabel "Identity and Access" c2Catalog = "N/A")) :=
  validation_fallback_amended "Identity and Access" c2Catalog (by decide)

/-! ## Product-details fetch (src/pipeline/nodes.py, fetch_product_details_node) -/

/-- Embedding of `PROMPTS["product_info"].format(product_name=..., product_url=...)`
(config/prompts.py lines 41-66); `\x7b\x7b`/`\x7d\x7d` in the template are
literal braces after `.format`. -/
def productInfoPrompt (product_name product_url : String) : String :=
  "Analyze this product and extract key information:\n\nProduct Name: "
  ++ product_name ++ "\nProduct URL: " ++ product_url ++
  "\n\nExtract the following:\n1. Product_name (official product name)\n2. Product_Link (canonical URL)\n3. Type_of_Product (e.g., \"CRM Software\", \"Security Platform\", \"HR Management System\")\n4. Type_of_users (target audience, e.g., \"Enterprise IT Teams\", \"Small Business Owners\")\n5. Tasks_a_user_can_perform (main tasks users can do, comma-separated)\n6. Product_features (key features, comma-separated)\n\nResearch using the provided URL and your knowledge.\n\nReturn ONLY a JSON object with these EXACT keys:\n\x7b\n    \"Product_name\": \"\",\n    \"Product_Link\": \"\",\n    \"Type_of_Product\": \"\",\n    \"Type_of_users\": \"\",\n    \"Tasks_a_user_can_perform\": \"\",\n    \"Product_features\": \"\"\n\x7d\n\nNo markdown, no explanations, just the JSON object."

/-- The semantic cache key of the product-details lookup (nodes.py lines
108-111 and 136-140): kind tag and `product_url` only — no
`product_name`. -/
def productCacheParams (product_url : String) : CacheParams :=
  [("type", "product_details"), ("product_url", product_url)]

/-- The outcome of one `fetch_product_details_node` run: the state update
(`product_details`, appended errors), the cache afterwards, and whether
the gateway was called. -/
structure FetchResult where
  product_details : Option PyDict
  new_errors : List String
  cache : SemCache PyDict
  made_llm_call : Bool

/-- The LLM branch of `fetch_product_details_node` (nodes.py lines
116-150): build the prompt, call the gateway, extract and parse the JSON,
cache a successful result for 7 days.  `llm` is the injected gateway
(prompt ↦ optional response text) and `parse` the injected `json.loads`
(exceptions as `Except.error`); the string handed to `parse` is produced
by the real `extract_json_from_response`. -/
def fetchProductCallPath (cache1 : SemCache PyDict) (now : Nat)
    (product_name product_url : String) (llm : String → Option String)
    (parse : String → Except String PyDict) : FetchResult :=
  match llm (productInfoPrompt product_name product_url) with
  | Option.none => ⟨Option.none, ["Product fetch failed"], cache1, true⟩
  | some response =>
    match parse (extract_json_from_response response) with
    | Except.error e => ⟨Option.none, ["Product error: " ++ e], cache1, true⟩
    | Except.ok product_details =>
      ⟨some product_details, [],
       CacheManager.set cache1 now product_details (7 * 24 * 3600)
         (productCacheParams product_url), true⟩

/-- Embedding of `fetch_product_details_node` (nodes.py lines 96-150): a *truthy*
cached dict (`if cached:`) short-circuits before the prompt is built; a
missing entry — or a cached empty dict, which is falsy — falls through to
the LLM branch. -/
def fetch_product_details_node (cache : SemCache PyDict) (now : Nat)
    (product_name product_url : String) (llm : String → Option String)
    (parse : String → Except String PyDict) : FetchResult :=
  match CacheManager.get cache now (productCacheParams product_url) with
  | (some cached, cache1) =>
    if cached.isEmpty then
      fetchProductCallPath cache1 now product_name product_url llm parse
    else ⟨some cached, [], cache1, false⟩
  | (Option.none, cache1) =>
    fetchProductCallPath cache1 now product_name product_url llm parse

/-- C10 (counterexample): when the first row's fetch parses to an *empty*
dict, the cached value is falsy for `if cached:`, so a second row with the
same product_url (different product_name, well inside the TTL) does issue
a new LLM call, contradicting the claim as stated. -/
theorem product_details_empty_dict_refetch :
    (fetch_product_details_node (emptySemCache PyDict) 0 "Name A"
      "example.com/p" (fun _ => some "\x7b\x7d")
      (fun s => if s = "\x7b\x7d" then Except.ok [] else Except.error "bad")
    ).product_details = some ([] : PyDict) ∧
    (fetch_product_details_node
      (fetch_product_details_node (emptySemCache PyDict) 0 "Name A"
        "example.com/p" (fun _ => some "\x7b\x7d")
        (fun s => if s = "\x7b\x7d" then Except.ok [] else Except.error "bad")
      ).cache 10 "Name B" "example.com/p" (fun _ => some "\x7b\x7d")
      (fun s => if s = "\x7b\x7d" then Except.ok [] else Except.error "bad")
    ).made_llm_call = true := by
  constructor <;>
    simp [fetch_product_details_node, fetchProductCallPath, CacheManager.get,
      CacheManager.set, emptySemCache, assocFind, assocSet, productCacheParams,
      canonParams, insertSortedParam, extract_json_from_response, stripFences,
      subJsonFence, subBareFence, findJsonSpan, upToLast, startsWithCh,
      pyIsSpace, bareFenceTail, productInfoPrompt]

/-- C10 (amended): the product-details semantic cache key is derived only
from the kind tag and `product_url`; provided the first row's fetch
succeeded with a *non-empty* details dict, a second fetch with any other
`product_name` but the same URL, before TTL expiry, returns the cached
dict without calling the LLM (a cached empty dict is falsy for
`if cached:` and is refetched instead). -/
theorem product_details_keyed_by_url (cache0 : SemCache PyDict)
    (now1 now2 : Nat) (name1 name2 url : String)
    (llm : String → Option String) (parse : String → Except String PyDict)
    (resp : String) (d : PyDict)
    (hmiss : assocFind (canonParams (productCacheParams url)) cache0.entries
      = Option.none)
    (hllm : llm (productInfoPrompt name1 url) = some resp)
    (hparse : parse (extract_json_from_response resp) = Except.ok d)
    (hne : d ≠ [])
    (httl : now2 < now1 + 7 * 24 * 3600) :
    (fetch_product_details_node cache0 now1 name1 url llm parse).product_details
      = some d ∧
    (fetch_product_details_node cache0 now1 name1 url llm parse).made_llm_call
      = true ∧
    (fetch_product_details_node
      (fetch_product_details_node cache0 now1 name1 url llm parse).cache
      now2 name2 url llm parse).product_details = some d ∧
    (fetch_product_details_node
      (fetch_product_details_node cache0 now1 name1 url llm parse).cache
      now2 name2 url llm parse).made_llm_call = false := by
  have h1 : fetch_product_details_node cache0 now1 name1 url llm parse
      = ⟨some d, [],
        CacheManager.set ⟨cache0.entries, cache0.hit_count, cache0.miss_count + 1⟩
          now1 d (7 * 24 * 3600) (productCacheParams url), true⟩ := by
    simp [fetch_product_details_node, CacheManager.get, hmiss,
      fetchProductCallPath, hllm, hparse]
  have hemp : d.isEmpty = false := by
    cases d with
    | nil => exact absurd rfl hne
    | cons p t => rfl
  have hfind : assocFind (canonParams (productCacheParams url))
      (CacheManager.set ⟨cache0.entries, cache0.hit_count, cache0.miss_count + 1⟩
        now1 d (7 * 24 * 3600) (productCacheParams url)).entries
      = some ⟨d, now1 + 7 * 24 * 3600, now1⟩ := by
    simp only [CacheManager.set]
    exact assocFind_set_self _ _ _
  refine ⟨by rw [h1], by rw [h1], ?_, ?_⟩ <;>
    rw [h1] <;>
    simp [fetch_product_details_node, CacheManager.get, hfind, httl, hemp]

def c10Llm : String → Option String := fun _ => some "resp-json"

def c10Parse : String → Except String PyDict := fun s =>
  if s = "resp-json" then Except.ok [("Type_of_Product", PyVal.str "CRM Software")]
  else Except.error "bad json"

/-- Witness for C10 (amended) at a concrete pair of rows sharing a URL
but not a product name. -/
theorem product_details_keyed_by_url_witness :
    (fetch_product_details_node (emptySemCache PyDict) 0 "Sales Cloud"
      "salesforce.com/p" c10Llm c10Parse).product_details
      = some [("Type_of_Product", PyVal.str "CRM Software")] ∧
    (fetch_product_details_node (emptySemCache PyDict) 0 "Sales Cloud"
      "salesforce.com/p" c10Llm c10Parse).made_llm_call = true ∧
    (fetch_product_details_node
      (fetch_product_details_node (emptySemCache PyDict) 0 "Sales Cloud"
        "salesforce.com/p" c10Llm c10Parse).cache
      10 "Service Cloud" "salesforce.com/p" c10Llm c10Parse).product_details
      = some [("Type_of_Product", PyVal.str "CRM Software")] ∧
    (fetch_product_details_node
      (fetch_product_details_node (emptySemCache PyDict) 0 "Sales Cloud"
        "salesforce.com/p" c10Llm c10Parse).cache
      10 "Service Cloud" "salesforce.com/p" c10Llm c10Parse).made_llm_call
      = false :=
  product_details_keyed_by_url (emptySemCache PyDict) 0 10 "Sales Cloud"
    "Service Cloud" "salesforce.com/p" c10Llm c10Parse "resp-json"
    [("Type_of_Product", PyVal.str "CRM Software")] rfl rfl
    (by simp [c10Parse, extract_json_from_response, stripFences, subJsonFence,
      subBareFence, findJsonSpan, upToLast, startsWithCh, pyIsSpace,
      bareFenceTail, pyStrip])
    (by simp) (by decide)

end ProductEnhancer
